import Mathlib

/-!
# Verification of the CloudFlare_Agent chat worker

Shallow embedding of the two core subsystems of the repository:

* `chatSessionDO.ts` — the per-session durable actor (SQLite-backed message
  log plus metadata), embedded as a pure state type `SessionState` with the
  operations `init`, `appendMessage`, `getRecentMessages`, `setSummary`,
  `getSummary`, `exportSession`.
* the worker (`src/unnamed/part_000`, the variant with R2 attachments) —
  rate limiter `checkRateLimit`, attachment resolution (capped read loop and
  permissive UTF-8 decode), and the `/api/chat` flow `chatFlow`.

SQLite modelling notes (documented where used):
* `id INTEGER PRIMARY KEY AUTOINCREMENT` assigns strictly increasing rowids,
  starting at 1: the insertion sequence.
* the index `idx_messages_ts ON messages(ts)` stores entries keyed by
  `(ts, rowid)`; `ORDER BY ts ASC` is a forward scan of that index (rows with
  equal `ts` come out in ascending rowid order) and `ORDER BY ts DESC` is the
  backward scan; we model both through one sorting function `orderByTsAsc`
  over the key `(ts, rowid)`.
* `LIMIT ?` with a negative argument imposes no bound (SQLite: "If the LIMIT
  expression evaluates to a negative value, then there is no upper bound on
  the number of rows returned"); `LIMIT 0` returns no rows.
-/

/-- Message roles, from `chatSessionDO.ts` (`MessageRole`). -/
inductive MessageRole where
  | user
  | assistant
  | system
deriving DecidableEq

/-- One row of the `messages` table.  `rowid` is the AUTOINCREMENT primary
key, i.e. the insertion sequence assigned by the store at append time. -/
structure MessageRow where
  role : MessageRole
  content : String
  ts : Int
  rowid : Nat
deriving DecidableEq

/-- State of one session's durable object: the `messages` table in insertion
(rowid) order, the AUTOINCREMENT counter, and the `meta` table
(`createdAt`, `updatedAt`, `summary`). -/
structure SessionState where
  nextRowid : Nat
  messages : List MessageRow
  createdAt : Int
  updatedAt : Int
  summary : Option String
deriving DecidableEq

/-- `init` on first access: empty tables, `createdAt = updatedAt = now`
(seeded once, guarded by the existing-`createdAt` check in the source);
AUTOINCREMENT starts at 1. -/
def initSession (now : Int) : SessionState :=
  { nextRowid := 1, messages := [], createdAt := now, updatedAt := now, summary := none }

/-- `appendMessage(role, content, ts)`: INSERT a row with the next rowid, then
`UPDATE meta SET value = ts WHERE key = 'updatedAt'`. -/
def appendMessage (role : MessageRole) (content : String) (ts : Int)
    (st : SessionState) : SessionState :=
  { st with
    messages := st.messages ++ [{ role := role, content := content, ts := ts, rowid := st.nextRowid }]
    nextRowid := st.nextRowid + 1
    updatedAt := ts }

/-- The ordering key of the index `idx_messages_ts`: `(ts, rowid)`
lexicographically. -/
def keyLe (a b : MessageRow) : Prop :=
  a.ts < b.ts ∨ (a.ts = b.ts ∧ a.rowid ≤ b.rowid)

instance : DecidableRel keyLe := fun a b => by
  unfold keyLe; infer_instance

instance : IsTotal MessageRow keyLe := by
  constructor
  intro a b
  unfold keyLe
  omega

instance : IsTrans MessageRow keyLe := by
  constructor
  intro a b c hab hbc
  unfold keyLe at *
  omega

/-- `ORDER BY ts ASC` as answered through the index `idx_messages_ts`
(forward scan): the rows sorted by `(ts, rowid)`. -/
def orderByTsAsc (rows : List MessageRow) : List MessageRow :=
  List.insertionSort keyLe rows

/-- SQLite `LIMIT ?`: a negative limit means no upper bound; otherwise take
that many rows. -/
def sqlLimit (limit : Int) (rows : List MessageRow) : List MessageRow :=
  if limit < 0 then rows else rows.take limit.toNat

/-- `getRecentMessages(limit)`:
`SELECT ... ORDER BY ts DESC LIMIT ?` (backward index scan = reverse of the
ascending order), then `out.reverse()`. -/
def getRecentMessages (limit : Int) (st : SessionState) : List MessageRow :=
  (sqlLimit limit (orderByTsAsc st.messages).reverse).reverse

/-- `setSummary(summary)`: INSERT OR REPLACE the summary, set `updatedAt` to
the current time. -/
def setSummary (summary : String) (now : Int) (st : SessionState) : SessionState :=
  { st with summary := some summary, updatedAt := now }

/-- `getSummary()`. -/
def getSummary (st : SessionState) : Option String :=
  st.summary

/-- Result shape of `exportSession()`. -/
structure ExportData where
  createdAt : Int
  updatedAt : Int
  summary : Option String
  messages : List MessageRow
deriving DecidableEq

/-- `exportSession()`: meta plus `SELECT ... ORDER BY ts ASC` (forward index
scan). -/
def exportSession (st : SessionState) : ExportData :=
  { createdAt := st.createdAt, updatedAt := st.updatedAt
    summary := st.summary, messages := orderByTsAsc st.messages }

/-- A store mutation, as issued by callers of the durable object: the
operation together with the time argument the caller supplies
(`ts` for `appendMessage`, `Date.now()` for `setSummary`). -/
inductive StoreOp where
  | append (role : MessageRole) (content : String) (t : Int)
  | setSum (s : String) (t : Int)

/-- Apply one store mutation. -/
def applyOp (op : StoreOp) (st : SessionState) : SessionState :=
  match op with
  | .append role content t => appendMessage role content t st
  | .setSum s t => setSummary s t st

/-- The time argument carried by a store mutation. -/
def opTime : StoreOp → Int
  | .append _ _ t => t
  | .setSum _ t => t

/-! ## Worker side: configuration, rate limiter -/

/-- The worker configuration (`getConfig`), with the defaults
`MESSAGE_MAX = 2000`, `HISTORY_LIMIT = 10`, `SUMMARIZE_LIMIT = 50`,
`RATE_REQUESTS = 10`, `RATE_WINDOW_MS = 60000`. -/
structure WorkerConfig where
  messageMax : Nat
  historyLimit : Int
  summarizeLimit : Int
  rateRequests : Nat
  rateWindowMs : Int

/-- The default configuration values of the worker. -/
def defaultConfig : WorkerConfig :=
  { messageMax := 2000, historyLimit := 10, summarizeLimit := 50
    rateRequests := 10, rateWindowMs := 60000 }

/-- The in-memory `rateLimitMap`: per session identity, the list of recorded
request timestamps (absent keys read as the empty list, mirroring `?? []`). -/
def RateMap : Type := String → List Int

/-- `checkRateLimit(sessionId, config)` over an explicit map state.
Mirrors the source: filter the entry to timestamps strictly inside the
window; if the remaining count reaches `rateRequests`, return `false`
without touching the map (the source returns before `set`); otherwise push
`now` and store the pruned list. -/
def checkRateLimit (sessionId : String) (now : Int) (config : WorkerConfig)
    (m : RateMap) : Bool × RateMap :=
  let windowStart := now - config.rateWindowMs
  let timestamps := (m sessionId).filter (fun t => decide (windowStart < t))
  if config.rateRequests ≤ timestamps.length then (false, m)
  else (true, Function.update m sessionId (timestamps ++ [now]))

/-- Iterate `checkRateLimit` over a list of call times, collecting the
boolean results and threading the map. -/
def runRateCalls (sessionId : String) (config : WorkerConfig) :
    List Int → RateMap → List Bool × RateMap
  | [], m => ([], m)
  | t :: ts, m =>
    let step := checkRateLimit sessionId t config m
    let rest := runRateCalls sessionId config ts step.2
    (step.1 :: rest.1, rest.2)

/-! ## Worker side: JavaScript value coercions -/

/-- A JavaScript value, as far as the worker inspects one: the possible
shapes of `aiRes?.response` and of request body fields. -/
inductive JSVal where
  | undef
  | null
  | str (s : String)
  | num (n : Int)
  | bool (b : Bool)
deriving DecidableEq

/-- JavaScript `String(v)` coercion. -/
def jsToString : JSVal → String
  | .undef => "undefined"
  | .null => "null"
  | .str s => s
  | .num n => toString n
  | .bool b => if b then "true" else "false"

/-- JavaScript `a ?? b`: `b` exactly when `a` is `undefined` or `null`. -/
def nullishCoalesce (a b : JSVal) : JSVal :=
  match a with
  | .undef => b
  | .null => b
  | v => v

/-- Reply extraction, from both the chat flow and the summarize flow:
`typeof r === "string" ? r : String(r ?? fallback)`. -/
def extractReply (v : JSVal) (fallback : String) : String :=
  match v with
  | .str s => s
  | v => jsToString (nullishCoalesce v (.str fallback))

/-- A request-body field as JSON parsing delivers it: absent, present but
not a string, or a string. -/
inductive JSField where
  | absent
  | nonString
  | str (s : String)

/-- The WhiteSpace and LineTerminator characters stripped by JavaScript
`String.prototype.trim`. -/
def isJsWhitespace (c : Char) : Bool :=
  c = ' ' || c = '\t' || c = '\n' || c = '\r' || c = '\x0b' || c = '\x0c' ||
  c = (Char.ofNat 0x00A0) || c = (Char.ofNat 0xFEFF) ||
  c = (Char.ofNat 0x2028) || c = (Char.ofNat 0x2029)

/-- JavaScript `s.trim()`: strip leading and trailing whitespace. -/
def jsTrim (s : String) : String :=
  String.mk (((s.data.dropWhile isJsWhitespace).reverse.dropWhile isJsWhitespace).reverse)

/-- `typeof f === "string" ? f.trim() : ""` — absent and non-string fields
collapse to the empty string. -/
def fieldToTrimmedString : JSField → String
  | .str s => jsTrim s
  | _ => ""

/-- The `fileId` field: `typeof f === "string" ? f.trim() : undefined`. -/
def fieldToOptTrimmed : JSField → Option String
  | .str s => some (jsTrim s)
  | _ => none

/-! ## Worker side: attachment resolution -/

/-- An object stored in the bucket: its key and its body as the stream of
byte chunks a reader yields. -/
structure R2Object where
  key : String
  chunks : List (List Nat)

/-- The object's size: the total number of body bytes. -/
def r2size (o : R2Object) : Nat :=
  (o.chunks.map List.length).sum

/-- Whether the string `s` starts with `p`, over the character lists. -/
def strStartsWith (p s : String) : Bool :=
  p.data.isPrefixOf s.data

/-- `BUCKET.list({prefix, limit: 1}).objects[0]`: the first stored object
whose key starts with the given string. -/
def bucketListFirst (p : String) (bucket : List R2Object) : Option R2Object :=
  (bucket.filter (fun o => strStartsWith p o.key)).head?

/-- The capped read loop shared by `/api/file` and the chat attachment path:
starting from `offset = 0`, read chunks while `offset < cap`, truncating each
chunk to `cap - offset` bytes (`chunk.slice(0, cap - offset)`); the result is
`buf.slice(0, offset)`, i.e. the concatenation of the truncated chunks. -/
def readCapped (cap : Nat) : List (List Nat) → List Nat
  | [] => []
  | c :: cs =>
    if cap = 0 then []
    else
      let chunk := c.take cap
      chunk ++ readCapped (cap - chunk.length) cs

/-- `FILE_RESPONSE_CAP_BYTES` from the worker. -/
def FILE_RESPONSE_CAP_BYTES : Nat := 100000

/-- The Unicode replacement character U+FFFD emitted by
`TextDecoder("utf-8", {fatal: false})` for malformed input. -/
def uRepl : Char := Char.ofNat 0xFFFD

/-- Whether a byte is a UTF-8 continuation byte in the given inclusive
range. -/
def contIn (lo hi b : Nat) : Bool := lo ≤ b && b ≤ hi

/-- Worker loop of the permissive UTF-8 decoder: structural recursion on a
fuel counter.  Every step consumes at least one input byte, so fuel equal to
the input length (as supplied by `utf8DecodeReplace`) is always sufficient;
the zero-fuel branch is unreachable under that call pattern. -/
def utf8DecodeGo : Nat → List Nat → List Char
  | _, [] => []
  | 0, _ => []
  | fuel + 1, b :: rest =>
    if b < 0x80 then
      Char.ofNat b :: utf8DecodeGo fuel rest
    else if b < 0xC2 then
      -- stray continuation byte, or overlong lead C0/C1
      uRepl :: utf8DecodeGo fuel rest
    else if b < 0xE0 then
      -- two-byte sequence
      match rest with
      | [] => [uRepl]
      | b2 :: r2 =>
        if contIn 0x80 0xBF b2 then
          Char.ofNat ((b - 0xC0) * 64 + (b2 - 0x80)) :: utf8DecodeGo fuel r2
        else
          uRepl :: utf8DecodeGo fuel (b2 :: r2)
    else if b < 0xF0 then
      -- three-byte sequence; lower bound A0 after E0 (overlong), upper
      -- bound 9F after ED (surrogates)
      match rest with
      | [] => [uRepl]
      | b2 :: r2 =>
        if contIn (if b = 0xE0 then 0xA0 else 0x80) (if b = 0xED then 0x9F else 0xBF) b2 then
          match r2 with
          | [] => [uRepl, uRepl]
          | b3 :: r3 =>
            if contIn 0x80 0xBF b3 then
              Char.ofNat ((b - 0xE0) * 4096 + (b2 - 0x80) * 64 + (b3 - 0x80)) ::
                utf8DecodeGo fuel r3
            else
              uRepl :: utf8DecodeGo fuel (b3 :: r3)
        else
          uRepl :: utf8DecodeGo fuel (b2 :: r2)
    else if b < 0xF5 then
      -- four-byte sequence; lower bound 90 after F0 (overlong), upper
      -- bound 8F after F4 (beyond U+10FFFF)
      match rest with
      | [] => [uRepl]
      | b2 :: r2 =>
        if contIn (if b = 0xF0 then 0x90 else 0x80) (if b = 0xF4 then 0x8F else 0xBF) b2 then
          match r2 with
          | [] => [uRepl, uRepl]
          | b3 :: r3 =>
            if contIn 0x80 0xBF b3 then
              match r3 with
              | [] => [uRepl, uRepl]
              | b4 :: r4 =>
                if contIn 0x80 0xBF b4 then
                  Char.ofNat ((b - 0xF0) * 262144 + (b2 - 0x80) * 4096 +
                      (b3 - 0x80) * 64 + (b4 - 0x80)) :: utf8DecodeGo fuel r4
                else
                  uRepl :: utf8DecodeGo fuel (b4 :: r4)
            else
              uRepl :: utf8DecodeGo fuel (b3 :: r3)
        else
          uRepl :: utf8DecodeGo fuel (b2 :: r2)
    else
      -- lead byte F5..FF: never valid
      uRepl :: utf8DecodeGo fuel rest

/-- Permissive UTF-8 decoding as performed by
`TextDecoder("utf-8", {fatal: false})`: the WHATWG decoder, which never
fails and emits U+FFFD for each maximal malformed subpart. -/
def utf8DecodeReplace (bs : List Nat) : List Char :=
  utf8DecodeGo bs.length bs

/-- Attachment resolution: prefix-list the bucket on `uploads/{fileId}-`,
read the matched object capped at `min(size, FILE_RESPONSE_CAP_BYTES)`
bytes, and decode permissively.  No match resolves to `none`
("no attachment", not an error). -/
def resolveAttachment (bucket : List R2Object) (fileId : String) : Option String :=
  match bucketListFirst ("uploads/" ++ fileId ++ "-") bucket with
  | none => none
  | some obj =>
    some (String.mk (utf8DecodeReplace
      (readCapped (min (r2size obj) FILE_RESPONSE_CAP_BYTES) obj.chunks)))

/-! ## Worker side: the chat and summarize flows -/

/-- The base system prompt of the chat flow. -/
def SYSTEM_PROMPT : String :=
  "You are a helpful, concise assistant. Ask clarifying questions when necessary. Do not output secrets or unsafe instructions."

/-- The summarization instruction. -/
def SUMMARIZE_PROMPT : String :=
  "Summarize the conversation in 5 bullet points focusing on user goals, constraints, and decisions. Keep under 120 words."

/-- One entry of the message list sent to the model. -/
structure PromptMsg where
  role : MessageRole
  content : String
deriving DecidableEq

/-- The mutable state the chat flow touches: the per-identity session stores
(`none` = durable object never accessed yet) and the in-memory rate map. -/
structure World where
  sessions : String → Option SessionState
  rateLimitMap : RateMap

/-- The error classes surfaced by the worker (with their HTTP status class):
validation (400), rate limit (429), model failure (502). -/
inductive FlowError where
  | validationError (m : String)
  | rateLimit
  | aiError (m : String)
deriving DecidableEq

/-- A flow's response: the envelope `{ok: true, data}` or
`{ok: false, error}`. -/
inductive FlowResult where
  | ok (text : String)
  | err (e : FlowError)
deriving DecidableEq

/-- Everything the chat flow needs besides the request body and the mutable
state: configuration, bucket contents, the model endpoint (which may fail
with a message, or return the raw `response` field value), and the values
`Date.now()` yields at the four points the flow reads the clock
(inside `checkRateLimit`, inside the durable object's lazy `init`, at the
user append, and at the assistant append). -/
structure ChatEnv where
  config : WorkerConfig
  bucket : List R2Object
  ai : List PromptMsg → Except String JSVal
  tRate : Int
  tInit : Int
  tUser : Int
  tAsst : Int

/-- The request body of `POST /api/chat` after JSON parsing. -/
structure ChatRequestBody where
  sessionId : JSField
  message : JSField
  fileId : JSField

/-- Outcome of a flow: the response, the state afterwards, and — when the
flow reached the model call — the message list it passed to the model. -/
structure FlowOutcome where
  result : FlowResult
  world : World
  sentPrompt : Option (List PromptMsg)

/-- `ensureInit` of the durable object: lazily create the tables and seed
the metadata on first access. -/
def ensureInit (tInit : Int) : Option SessionState → SessionState
  | none => initSession tInit
  | some st => st

/-- The text sent to the model for this exchange: when a non-empty `fileId`
is present (JS truthiness: the empty trimmed string is falsy) and resolves,
the attachment content wrapped with the fixed marker is concatenated ahead
of the user message; otherwise the user message itself. -/
def attachUserContent (bucket : List R2Object) (fileId : Option String)
    (message : String) : String :=
  match fileId with
  | some fid =>
    if fid = "" then message
    else
      match resolveAttachment bucket fid with
      | some fileContent => "[Attached file]\n" ++ fileContent ++ "\n\n---\n\n" ++ message
      | none => message
  | none => message

/-- Prompt assembly of the chat flow: base system prompt, the stored summary
(if any) as a second system entry, the fetched recent history, and the
current turn. -/
def assemblePrompt (summary : Option String) (recent : List MessageRow)
    (userContentForAI : String) : List PromptMsg :=
  [⟨.system, SYSTEM_PROMPT⟩] ++
    (match summary with
     | some s => [⟨.system, "Session summary: " ++ s⟩]
     | none => []) ++
    recent.map (fun m => ⟨m.role, m.content⟩) ++
    [⟨.user, userContentForAI⟩]

/-- The `POST /api/chat` flow, steps in source order: trim/default the body
fields, validate the session identity and message lengths, check the rate
limiter, resolve the optional attachment, append the user message (original
text, at `tUser`), read summary and recent history, assemble the prompt,
call the model, and append the reply (at `tAsst`). -/
def chatFlow (env : ChatEnv) (body : ChatRequestBody) (w : World) : FlowOutcome :=
  let sessionId := fieldToTrimmedString body.sessionId
  let message := fieldToTrimmedString body.message
  let fileId := fieldToOptTrimmed body.fileId
  if sessionId.length < 8 then
    ⟨.err (.validationError "sessionId required, min length 8"), w, none⟩
  else if message.length < 1 ∨ env.config.messageMax < message.length then
    ⟨.err (.validationError "message required, length 1..max"), w, none⟩
  else
    let rl := checkRateLimit sessionId env.tRate env.config w.rateLimitMap
    if rl.1 = false then
      ⟨.err .rateLimit, { w with rateLimitMap := rl.2 }, none⟩
    else
      let userContentForAI := attachUserContent env.bucket fileId message
      let st0 := ensureInit env.tInit (w.sessions sessionId)
      let st1 := appendMessage .user message env.tUser st0
      let summary := getSummary st1
      let recent := getRecentMessages env.config.historyLimit st1
      let prompt := assemblePrompt summary recent userContentForAI
      let w1 : World :=
        { sessions := Function.update w.sessions sessionId (some st1)
          rateLimitMap := rl.2 }
      match env.ai prompt with
      | .error msg => ⟨.err (.aiError msg), w1, some prompt⟩
      | .ok v =>
        let reply := extractReply v "No response."
        let st2 := appendMessage .assistant reply env.tAsst st1
        ⟨.ok reply,
          { sessions := Function.update w.sessions sessionId (some st2)
            rateLimitMap := rl.2 },
          some prompt⟩

/-- Role names as they appear in the transcript lines `"{role}: {content}"`. -/
def roleName : MessageRole → String
  | .user => "user"
  | .assistant => "assistant"
  | .system => "system"

/-- The `POST /api/summarize` flow: validate the identity, check the rate
limiter, fetch the larger history window, build the transcript (or the fixed
placeholder when empty), call the model, store the summary (at `tSum`). -/
def summarizeFlow (env : ChatEnv) (tSum : Int) (sessionIdField : JSField)
    (w : World) : FlowOutcome :=
  let sessionId := fieldToTrimmedString sessionIdField
  if sessionId.length < 8 then
    ⟨.err (.validationError "sessionId required, min length 8"), w, none⟩
  else
    let rl := checkRateLimit sessionId env.tRate env.config w.rateLimitMap
    if rl.1 = false then
      ⟨.err .rateLimit, { w with rateLimitMap := rl.2 }, none⟩
    else
      let st0 := ensureInit env.tInit (w.sessions sessionId)
      let recent := getRecentMessages env.config.summarizeLimit st0
      let transcript := String.intercalate "\n"
        (recent.map (fun m => roleName m.role ++ ": " ++ m.content))
      let summarizationPrompt :=
        if transcript = "" then "No messages in this session."
        else SUMMARIZE_PROMPT ++ "\n\nConversation:\n" ++ transcript
      let prompt : List PromptMsg := [⟨.user, summarizationPrompt⟩]
      match env.ai prompt with
      | .error msg =>
        ⟨.err (.aiError msg),
          { sessions := Function.update w.sessions sessionId (some st0)
            rateLimitMap := rl.2 },
          some prompt⟩
      | .ok v =>
        let summary := extractReply v "No summary."
        let st1 := setSummary summary tSum st0
        ⟨.ok summary,
          { sessions := Function.update w.sessions sessionId (some st1)
            rateLimitMap := rl.2 },
          some prompt⟩

/-! ## Helper lemmas -/

/-- Inserting below an already-final maximal element leaves it last. -/
lemma orderedInsert_append_single (a u : MessageRow) (s : List MessageRow)
    (h : keyLe a u) :
    List.orderedInsert keyLe a (s ++ [u]) = List.orderedInsert keyLe a s ++ [u] := by
  induction s with
  | nil => simp [List.orderedInsert, if_pos h]
  | cons b s ih =>
    simp only [List.cons_append, List.orderedInsert]
    by_cases hb : keyLe a b
    · simp [if_pos hb]
    · simp [if_neg hb, ih]

/-- Sorting a list that ends in an element maximal for the key keeps that
element last. -/
lemma insertionSort_append_max (l : List MessageRow) (u : MessageRow)
    (h : ∀ x ∈ l, keyLe x u) :
    List.insertionSort keyLe (l ++ [u]) = List.insertionSort keyLe l ++ [u] := by
  induction l with
  | nil => simp [List.insertionSort, List.orderedInsert]
  | cons a l ih =>
    simp only [List.cons_append, List.insertionSort, List.append_eq]
    rw [ih (fun x hx => h x (List.mem_cons_of_mem _ hx))]
    exact orderedInsert_append_single a u _ (h a (List.mem_cons_self _ _))

/-- Taking from the end: reverse, take, reverse is a drop. -/
lemma reverse_take_reverse (l : List MessageRow) (n : Nat) :
    (l.reverse.take n).reverse = l.drop (l.length - n) := by
  rw [List.take_reverse, List.reverse_reverse]

/-- `scanl` starts with its seed. -/
lemma scanl_head_eq {α β : Type} (f : β → α → β) (b : β) (l : List α) :
    (List.scanl f b l).head? = some b := by
  cases l <;> simp [List.scanl]

/-! ## C1 -/

/-- C1: for every session log and every `N > 0`, `getRecentMessages(N)`
returns exactly the last `min(N, totalAppended)` messages under the ordering
key `(ts, rowid)` in ascending order: it equals the corresponding suffix of
the key-sorted log, has length `min(N, total)`, is sorted ascending under the
key, is a suffix of the sorted log, and the sorted log is a permutation of
the appended messages.  Repeated calls with no intervening appends agree
because the retrieval is a pure function of the store state in this
embedding (the source performs a read-only SELECT). -/
theorem c1_getRecentMessages_last_min (st : SessionState) (N : Int) (hN : 0 < N) :
    getRecentMessages N st =
      (orderByTsAsc st.messages).drop
        (st.messages.length - min N.toNat st.messages.length) ∧
    (getRecentMessages N st).length = min N.toNat st.messages.length ∧
    List.Sorted keyLe (getRecentMessages N st) ∧
    getRecentMessages N st <:+ orderByTsAsc st.messages ∧
    (orderByTsAsc st.messages).Perm st.messages := by
  have hneg : ¬ N < 0 := by omega
  have hlen : (orderByTsAsc st.messages).length = st.messages.length :=
    (List.perm_insertionSort keyLe st.messages).length_eq
  have key : getRecentMessages N st =
      (orderByTsAsc st.messages).drop ((orderByTsAsc st.messages).length - N.toNat) := by
    unfold getRecentMessages sqlLimit
    rw [if_neg hneg, reverse_take_reverse]
  refine ⟨?_, ?_, ?_, ?_, List.perm_insertionSort keyLe st.messages⟩
  · rw [key, hlen]
    congr 1
    omega
  · rw [key, List.length_drop, hlen]
    omega
  · rw [key]
    exact List.Pairwise.sublist (List.drop_sublist _ _)
      (List.sorted_insertionSort keyLe st.messages)
  · rw [key]
    exact List.drop_suffix _ _

/-- A small concrete store: user "Hello" at t=1000, then assistant "Hi" at
t=1001, on a session initialized at t=999. -/
def sampleStore : SessionState :=
  appendMessage .assistant "Hi" 1001 (appendMessage .user "Hello" 1000 (initSession 999))

/-- Witness for C1 at the concrete store and `N = 10`. -/
theorem c1_witness :
    (0 : Int) < 10 ∧
    (getRecentMessages 10 sampleStore).length = min (10 : Int).toNat sampleStore.messages.length :=
  ⟨by norm_num, (c1_getRecentMessages_last_min sampleStore 10 (by norm_num)).2.1⟩

/-! ## C9 -/

/-- C9 counterexample: the claim says every `limit ≤ 0` yields the empty
sequence, but SQLite imposes no bound for a negative LIMIT, so
`getRecentMessages(-1)` on a one-message log returns that message. -/
theorem c9_counterexample :
    (-1 : Int) ≤ 0 ∧
    getRecentMessages (-1) (appendMessage .user "Hello" 1000 (initSession 100)) =
      [{ role := .user, content := "Hello", ts := 1000, rowid := 1 }] := by
  constructor
  · norm_num
  · decide

/-- C9 amended: `limit = 0` returns the empty sequence; a negative limit
returns the whole log in ascending key order (SQLite: a negative LIMIT means
no upper bound); a positive limit at least the log length also returns the
whole log. -/
theorem c9_amended (st : SessionState) (limit : Int) :
    getRecentMessages 0 st = [] ∧
    (limit < 0 → getRecentMessages limit st = orderByTsAsc st.messages) ∧
    (0 < limit → st.messages.length ≤ limit.toNat →
      getRecentMessages limit st = orderByTsAsc st.messages) := by
  refine ⟨?_, ?_, ?_⟩
  · unfold getRecentMessages sqlLimit
    simp
  · intro h
    unfold getRecentMessages sqlLimit
    rw [if_pos h, List.reverse_reverse]
  · intro h1 h2
    have hneg : ¬ limit < 0 := by omega
    have hlen : (orderByTsAsc st.messages).reverse.length ≤ limit.toNat := by
      rw [List.length_reverse]
      unfold orderByTsAsc
      rw [(List.perm_insertionSort keyLe st.messages).length_eq]
      exact h2
    unfold getRecentMessages sqlLimit
    rw [if_neg hneg, List.take_of_length_le hlen, List.reverse_reverse]

/-- Witness for C9 amended at a concrete store and `limit = -1` /
`limit = 5`. -/
theorem c9_witness :
    ((-1 : Int) < 0 → getRecentMessages (-1) sampleStore = orderByTsAsc sampleStore.messages) ∧
    getRecentMessages 0 sampleStore = [] :=
  ⟨(c9_amended sampleStore (-1)).2.1, (c9_amended sampleStore (-1)).1⟩

/-! ## C8 -/

/-- C8 counterexample: `appendMessage` sets `updatedAt` to the
caller-supplied message timestamp unconditionally, so appending with a
timestamp in the past moves `updatedAt` backwards and below `createdAt`:
initializing at time 100 and appending at ts 50 breaks
`createdAt ≤ updatedAt`. -/
theorem c8_counterexample :
    (appendMessage .user "x" 50 (initSession 100)).updatedAt <
      (appendMessage .user "x" 50 (initSession 100)).createdAt := by
  decide

/-- Invariant preservation along a trace of store operations whose time
arguments never go backwards. -/
lemma storeTrace_invariant : ∀ (ops : List StoreOp) (st : SessionState),
    st.createdAt ≤ st.updatedAt →
    List.Chain' (· ≤ ·) (st.updatedAt :: ops.map opTime) →
    (∀ s ∈ List.scanl (fun acc op => applyOp op acc) st ops,
        s.createdAt = st.createdAt ∧ s.createdAt ≤ s.updatedAt) ∧
    List.Chain' (· ≤ ·)
      ((List.scanl (fun acc op => applyOp op acc) st ops).map (·.updatedAt))
  | [], st, hinv, _ => by
    constructor
    · intro s hs
      simp only [List.scanl, List.mem_singleton] at hs
      subst hs
      exact ⟨rfl, hinv⟩
    · simp [List.scanl]
  | op :: ops, st, hinv, hchain => by
    have hcreated : (applyOp op st).createdAt = st.createdAt := by
      cases op <;> simp [applyOp, appendMessage, setSummary]
    have hupdated : (applyOp op st).updatedAt = opTime op := by
      cases op <;> simp [applyOp, appendMessage, setSummary, opTime]
    have hle : st.updatedAt ≤ opTime op := by
      rw [List.map_cons, List.chain'_cons] at hchain
      exact hchain.1
    have hchain' : List.Chain' (· ≤ ·) ((applyOp op st).updatedAt :: ops.map opTime) := by
      rw [hupdated]
      rw [List.map_cons, List.chain'_cons] at hchain
      exact hchain.2
    have hinv' : (applyOp op st).createdAt ≤ (applyOp op st).updatedAt := by
      rw [hcreated, hupdated]
      exact le_trans hinv hle
    have ih := storeTrace_invariant ops (applyOp op st) hinv' hchain'
    constructor
    · intro s hs
      rw [List.scanl_cons] at hs
      rcases List.mem_append.mp hs with h1 | h2
      · rw [List.mem_singleton] at h1
        subst h1
        exact ⟨rfl, hinv⟩
      · have := ih.1 s h2
        exact ⟨this.1.trans hcreated, this.2⟩
    · rw [List.scanl_cons]
      simp only [List.singleton_append, List.map_cons]
      obtain ⟨tl, htl⟩ : ∃ tl, List.scanl (fun acc op => applyOp op acc) (applyOp op st) ops
          = (applyOp op st) :: tl := by
        cases ops <;> exact ⟨_, rfl⟩
      have ih2 := ih.2
      rw [htl, List.map_cons] at ih2
      rw [htl, List.map_cons, List.chain'_cons]
      refine ⟨?_, ih2⟩
      rw [hupdated]
      exact hle

/-- C8 amended: the invariant `createdAt ≤ updatedAt` and the monotonicity
of `updatedAt` hold after every operation of a sequence provided the
operations' time arguments are nondecreasing starting from the
initialization time (as is the case when every time comes from a monotone
wall clock, which is how the worker calls the store); with an arbitrary
caller-supplied `ts`, `appendMessage` can move `updatedAt` backwards (see
the counterexample).  `createdAt` stays at its seed along the whole trace
and is never overwritten. -/
theorem c8_amended (t0 : Int) (ops : List StoreOp)
    (hmono : List.Chain' (· ≤ ·) (t0 :: ops.map opTime)) :
    (∀ s ∈ List.scanl (fun acc op => applyOp op acc) (initSession t0) ops,
        s.createdAt = t0 ∧ s.createdAt ≤ s.updatedAt) ∧
    List.Chain' (· ≤ ·)
      ((List.scanl (fun acc op => applyOp op acc) (initSession t0) ops).map (·.updatedAt)) :=
  storeTrace_invariant ops (initSession t0) (le_refl _) hmono

/-- Witness for C8 amended: init at 100, append at 1000, set a summary at
1001. -/
theorem c8_witness :
    List.Chain' (· ≤ ·) (100 :: [StoreOp.append .user "Hello" 1000, StoreOp.setSum "S" 1001].map opTime) ∧
    (∀ s ∈ List.scanl (fun acc op => applyOp op acc) (initSession 100)
        [StoreOp.append .user "Hello" 1000, StoreOp.setSum "S" 1001],
        s.createdAt = 100 ∧ s.createdAt ≤ s.updatedAt) :=
  ⟨by norm_num [opTime, List.chain'_cons],
   (c8_amended 100 [StoreOp.append .user "Hello" 1000, StoreOp.setSum "S" 1001]
     (by norm_num [opTime, List.chain'_cons])).1⟩

/-! ## C7 -/

/-- C7 counterexample: the source computes
`typeof r === "string" ? r : String(r ?? "No response.")`, so a present but
non-string `response` field — here the number 42 — is coerced to `"42"`
rather than replaced by the literal fallback the claim requires. -/
theorem c7_counterexample :
    extractReply (.num 42) "No response." = "42" ∧
    extractReply (.num 42) "No response." ≠ "No response." := by
  constructor <;> decide

/-- C7 amended: only a missing response field (`undefined` or `null`,
including the case where the call result itself is not an object) is
replaced by the literal fallback string ("No response." in the chat flow,
"No summary." in the summarize flow); a string is returned as-is; a present
non-string value is coerced with JavaScript `String(...)` instead of the
fallback.  In all cases a reply string is produced, so the exchange
completes instead of failing. -/
theorem c7_amended (fallback s : String) (n : Int) (b : Bool) :
    extractReply .undef fallback = fallback ∧
    extractReply .null fallback = fallback ∧
    extractReply (.str s) fallback = s ∧
    extractReply (.num n) fallback = toString n ∧
    extractReply (.bool b) fallback = (if b then "true" else "false") := by
  refine ⟨rfl, rfl, rfl, rfl, ?_⟩
  cases b <;> rfl

/-! ## C6 -/

/-- The capped read loop never yields more bytes than its cap. -/
lemma readCapped_length_le : ∀ (cs : List (List Nat)) (cap : Nat),
    (readCapped cap cs).length ≤ cap
  | [], cap => by simp [readCapped]
  | c :: cs, cap => by
    unfold readCapped
    by_cases h : cap = 0
    · simp [h]
    · rw [if_neg h]
      have htake : (c.take cap).length ≤ cap := by
        rw [List.length_take]
        omega
      have := readCapped_length_le cs (cap - (c.take cap).length)
      simp only [List.length_append]
      omega

/-- C6: attachment resolution reads at most `FILE_RESPONSE_CAP_BYTES`
(100000) bytes regardless of the object's true size; a `fileId` with no
matching stored object resolves to `none`, which the chat flow treats as
"no attachment" (the model text is the bare user message); and decoding is
total with malformed byte sequences replaced by U+FFFD, never an error —
e.g. the lone invalid lead byte 0xFF decodes to the replacement character
followed by the rest of the input. -/
theorem c6_attachment_bounds (chunks : List (List Nat)) (size : Nat)
    (bucket : List R2Object) (fid msg : String) :
    (readCapped (min size FILE_RESPONSE_CAP_BYTES) chunks).length ≤ FILE_RESPONSE_CAP_BYTES ∧
    (bucketListFirst ("uploads/" ++ fid ++ "-") bucket = none →
      resolveAttachment bucket fid = none) ∧
    (resolveAttachment bucket fid = none →
      attachUserContent bucket (some fid) msg = msg) ∧
    utf8DecodeReplace [0xFF, 0x41] = [uRepl, 'A'] := by
  refine ⟨?_, ?_, ?_, ?_⟩
  · exact le_trans (readCapped_length_le chunks _) (min_le_right _ _)
  · intro h
    unfold resolveAttachment
    rw [h]
  · intro h
    show (if fid = "" then msg
      else match resolveAttachment bucket fid with
        | some fileContent => "[Attached file]\n" ++ fileContent ++ "\n\n---\n\n" ++ msg
        | none => msg) = msg
    by_cases hfid : fid = ""
    · rw [if_pos hfid]
    · rw [if_neg hfid, h]
  · decide

/-- Witness for C6 on the empty bucket: no object matches, resolution is
absent, and the chat text falls back to the bare message. -/
theorem c6_witness :
    bucketListFirst ("uploads/" ++ "f" ++ "-") ([] : List R2Object) = none ∧
    resolveAttachment [] "f" = none ∧
    attachUserContent [] (some "f") "Question" = "Question" :=
  ⟨rfl,
   (c6_attachment_bounds [] 0 [] "f" "Question").2.1 rfl,
   (c6_attachment_bounds [] 0 [] "f" "Question").2.2.1
     ((c6_attachment_bounds [] 0 [] "f" "Question").2.1 rfl)⟩

/-! ## C3 -/

/-- C3: a chat request whose trimmed session identity is shorter than 8, or
whose trimmed message length lies outside `[1, messageMax]`, yields a
validation failure and leaves the state untouched: no session store changes
and no rate-limiter timestamp is recorded (the flow rejects before either).
Absent or non-string `sessionId`/`message` fields trim to the empty string
and are therefore invalid. -/
theorem c3_validation_no_side_effect (env : ChatEnv) (body : ChatRequestBody) (w : World)
    (h : (fieldToTrimmedString body.sessionId).length < 8 ∨
         (fieldToTrimmedString body.message).length < 1 ∨
         env.config.messageMax < (fieldToTrimmedString body.message).length) :
    (∃ m, (chatFlow env body w).result = .err (.validationError m)) ∧
    (chatFlow env body w).world = w ∧
    (chatFlow env body w).sentPrompt = none ∧
    fieldToTrimmedString .absent = "" ∧
    fieldToTrimmedString .nonString = "" := by
  simp only [chatFlow]
  split_ifs with h1 h2 h3
  · exact ⟨⟨_, rfl⟩, rfl, rfl, rfl, rfl⟩
  · exact ⟨⟨_, rfl⟩, rfl, rfl, rfl, rfl⟩
  all_goals
    exfalso
    rcases h with hA | hB | hC
    · exact h1 hA
    · exact h2 (Or.inl hB)
    · exact h2 (Or.inr hC)

/-- A concrete environment for witnesses: default configuration, empty
bucket, a model endpoint that always fails. -/
def sampleEnv : ChatEnv :=
  { config := defaultConfig, bucket := []
    ai := fun _ => Except.error "model down"
    tRate := 5000, tInit := 5001, tUser := 5002, tAsst := 5003 }

/-- A concrete fresh state for witnesses. -/
def emptyWorld : World :=
  { sessions := fun _ => none, rateLimitMap := fun _ => [] }

/-- Scenario B's request body: session identity "abc" (length 3). -/
def shortSidBody : ChatRequestBody :=
  { sessionId := .str "abc", message := .str "Hello", fileId := .absent }

/-- Witness for C3 at Scenario B: identity "abc" is rejected with no state
change. -/
theorem c3_witness :
    ((fieldToTrimmedString shortSidBody.sessionId).length < 8 ∨
      (fieldToTrimmedString shortSidBody.message).length < 1 ∨
      sampleEnv.config.messageMax < (fieldToTrimmedString shortSidBody.message).length) ∧
    (∃ m, (chatFlow sampleEnv shortSidBody emptyWorld).result = .err (.validationError m)) ∧
    (chatFlow sampleEnv shortSidBody emptyWorld).world = emptyWorld :=
  ⟨Or.inl (by decide),
   (c3_validation_no_side_effect sampleEnv shortSidBody emptyWorld (Or.inl (by decide))).1,
   (c3_validation_no_side_effect sampleEnv shortSidBody emptyWorld (Or.inl (by decide))).2.1⟩

/-! ## Flow characterization (shared by the chat-flow claims) -/

/-- The session store state right after the chat flow's user append: the
lazily initialized store with the original trimmed message appended as a
user row at `tUser`. -/
def chatUserAppended (env : ChatEnv) (body : ChatRequestBody) (w : World) : SessionState :=
  appendMessage .user (fieldToTrimmedString body.message) env.tUser
    (ensureInit env.tInit (w.sessions (fieldToTrimmedString body.sessionId)))

/-- The message list the chat flow passes to the model. -/
def chatPrompt (env : ChatEnv) (body : ChatRequestBody) (w : World) : List PromptMsg :=
  assemblePrompt (getSummary (chatUserAppended env body w))
    (getRecentMessages env.config.historyLimit (chatUserAppended env body w))
    (attachUserContent env.bucket (fieldToOptTrimmed body.fileId)
      (fieldToTrimmedString body.message))

/-- Once validation and the rate limiter pass, the chat flow appends the
user message and is determined by the model call on the assembled prompt. -/
lemma chatFlow_reaches_model (env : ChatEnv) (body : ChatRequestBody) (w : World)
    (hsid : ¬ (fieldToTrimmedString body.sessionId).length < 8)
    (hmsg : ¬ ((fieldToTrimmedString body.message).length < 1 ∨
      env.config.messageMax < (fieldToTrimmedString body.message).length))
    (hrate : (checkRateLimit (fieldToTrimmedString body.sessionId) env.tRate env.config
      w.rateLimitMap).1 = true) :
    chatFlow env body w =
      match env.ai (chatPrompt env body w) with
      | .error e =>
        ⟨.err (.aiError e),
         { sessions := Function.update w.sessions (fieldToTrimmedString body.sessionId)
             (some (chatUserAppended env body w))
           rateLimitMap := (checkRateLimit (fieldToTrimmedString body.sessionId) env.tRate
             env.config w.rateLimitMap).2 },
         some (chatPrompt env body w)⟩
      | .ok v =>
        ⟨.ok (extractReply v "No response."),
         { sessions := Function.update w.sessions (fieldToTrimmedString body.sessionId)
             (some (appendMessage .assistant (extractReply v "No response.") env.tAsst
               (chatUserAppended env body w)))
           rateLimitMap := (checkRateLimit (fieldToTrimmedString body.sessionId) env.tRate
             env.config w.rateLimitMap).2 },
         some (chatPrompt env body w)⟩ := by
  simp only [chatFlow, chatUserAppended, chatPrompt]
  rw [if_neg hsid, if_neg hmsg, if_neg (by simp [hrate])]

/-- Chat flow outcome when the model call fails. -/
lemma chatFlow_ai_error (env : ChatEnv) (body : ChatRequestBody) (w : World) (e : String)
    (hsid : ¬ (fieldToTrimmedString body.sessionId).length < 8)
    (hmsg : ¬ ((fieldToTrimmedString body.message).length < 1 ∨
      env.config.messageMax < (fieldToTrimmedString body.message).length))
    (hrate : (checkRateLimit (fieldToTrimmedString body.sessionId) env.tRate env.config
      w.rateLimitMap).1 = true)
    (hai : env.ai (chatPrompt env body w) = .error e) :
    chatFlow env body w =
      ⟨.err (.aiError e),
       { sessions := Function.update w.sessions (fieldToTrimmedString body.sessionId)
           (some (chatUserAppended env body w))
         rateLimitMap := (checkRateLimit (fieldToTrimmedString body.sessionId) env.tRate
           env.config w.rateLimitMap).2 },
       some (chatPrompt env body w)⟩ := by
  rw [chatFlow_reaches_model env body w hsid hmsg hrate, hai]

/-- Chat flow outcome when the model call returns a value. -/
lemma chatFlow_ai_ok (env : ChatEnv) (body : ChatRequestBody) (w : World) (v : JSVal)
    (hsid : ¬ (fieldToTrimmedString body.sessionId).length < 8)
    (hmsg : ¬ ((fieldToTrimmedString body.message).length < 1 ∨
      env.config.messageMax < (fieldToTrimmedString body.message).length))
    (hrate : (checkRateLimit (fieldToTrimmedString body.sessionId) env.tRate env.config
      w.rateLimitMap).1 = true)
    (hai : env.ai (chatPrompt env body w) = .ok v) :
    chatFlow env body w =
      ⟨.ok (extractReply v "No response."),
       { sessions := Function.update w.sessions (fieldToTrimmedString body.sessionId)
           (some (appendMessage .assistant (extractReply v "No response.") env.tAsst
             (chatUserAppended env body w)))
         rateLimitMap := (checkRateLimit (fieldToTrimmedString body.sessionId) env.tRate
           env.config w.rateLimitMap).2 },
       some (chatPrompt env body w)⟩ := by
  rw [chatFlow_reaches_model env body w hsid hmsg hrate, hai]

/-! ## C4 -/

/-- C4: the user message is appended before the model is invoked, so when
the model call fails the flow returns an upstream-unavailable-class error
(`ai_error`, HTTP 502) — never a silent empty reply — while the user's
message is durably recorded as exactly one new user row with no
corresponding assistant row; and a retry of the same message appends a
second identical user entry (no deduplication). -/
theorem c4_append_before_model (env : ChatEnv) (body : ChatRequestBody) (w : World) (e : String)
    (hsid : 8 ≤ (fieldToTrimmedString body.sessionId).length)
    (hmsg1 : 1 ≤ (fieldToTrimmedString body.message).length)
    (hmsg2 : (fieldToTrimmedString body.message).length ≤ env.config.messageMax)
    (hrate : (checkRateLimit (fieldToTrimmedString body.sessionId) env.tRate env.config
      w.rateLimitMap).1 = true)
    (hrate2 : (checkRateLimit (fieldToTrimmedString body.sessionId) env.tRate env.config
      (checkRateLimit (fieldToTrimmedString body.sessionId) env.tRate env.config
        w.rateLimitMap).2).1 = true)
    (hai : ∀ p, env.ai p = .error e) :
    (chatFlow env body w).result = .err (.aiError e) ∧
    (chatFlow env body w).world.sessions (fieldToTrimmedString body.sessionId) =
      some (chatUserAppended env body w) ∧
    (chatUserAppended env body w).messages =
      (ensureInit env.tInit (w.sessions (fieldToTrimmedString body.sessionId))).messages ++
        [{ role := .user, content := fieldToTrimmedString body.message, ts := env.tUser,
           rowid := (ensureInit env.tInit
             (w.sessions (fieldToTrimmedString body.sessionId))).nextRowid }] ∧
    (chatFlow env body (chatFlow env body w).world).world.sessions
        (fieldToTrimmedString body.sessionId) =
      some (chatUserAppended env body (chatFlow env body w).world) ∧
    (chatUserAppended env body (chatFlow env body w).world).messages =
      (ensureInit env.tInit (w.sessions (fieldToTrimmedString body.sessionId))).messages ++
        [{ role := .user, content := fieldToTrimmedString body.message, ts := env.tUser,
           rowid := (ensureInit env.tInit
             (w.sessions (fieldToTrimmedString body.sessionId))).nextRowid },
         { role := .user, content := fieldToTrimmedString body.message, ts := env.tUser,
           rowid := (ensureInit env.tInit
             (w.sessions (fieldToTrimmedString body.sessionId))).nextRowid + 1 }] := by
  have hsid' : ¬ (fieldToTrimmedString body.sessionId).length < 8 := by omega
  have hmsg' : ¬ ((fieldToTrimmedString body.message).length < 1 ∨
      env.config.messageMax < (fieldToTrimmedString body.message).length) := by
    rintro (h | h) <;> omega
  have h1 := chatFlow_ai_error env body w e hsid' hmsg' hrate (hai _)
  have h2 := chatFlow_ai_error env body
    { sessions := Function.update w.sessions (fieldToTrimmedString body.sessionId)
        (some (chatUserAppended env body w))
      rateLimitMap := (checkRateLimit (fieldToTrimmedString body.sessionId) env.tRate
        env.config w.rateLimitMap).2 }
    e hsid' hmsg' hrate2 (hai _)
  rw [h1]
  refine ⟨rfl, ?_, ?_, ?_, ?_⟩
  · simp [Function.update_same]
  · simp [chatUserAppended, appendMessage]
  · rw [h2]
    simp [Function.update_same]
  · simp only [chatUserAppended, ensureInit, Function.update_same, appendMessage]
    simp [List.append_assoc]

/-- A valid request body (identity of length 8) used by witnesses. -/
def validBody : ChatRequestBody :=
  { sessionId := .str "session1", message := .str "Hello", fileId := .absent }

/-- Witness for C4 at a fresh session with the always-failing model. -/
theorem c4_witness :
    8 ≤ (fieldToTrimmedString validBody.sessionId).length ∧
    (chatFlow sampleEnv validBody emptyWorld).result = .err (.aiError "model down") ∧
    (chatFlow sampleEnv validBody emptyWorld).world.sessions
        (fieldToTrimmedString validBody.sessionId) =
      some (chatUserAppended sampleEnv validBody emptyWorld) :=
  ⟨by decide,
   (c4_append_before_model sampleEnv validBody emptyWorld "model down"
      (by decide) (by decide) (by decide) (by decide) (by decide) (fun _ => rfl)).1,
   (c4_append_before_model sampleEnv validBody emptyWorld "model down"
      (by decide) (by decide) (by decide) (by decide) (by decide) (fun _ => rfl)).2.1⟩

/-! ## C5 -/

/-- The assembled prompt always ends with the current turn. -/
lemma assemblePrompt_getLast (s : Option String) (r : List MessageRow) (u : String) :
    (assemblePrompt s r u).getLast? = some ⟨.user, u⟩ := by
  unfold assemblePrompt
  exact List.getLast?_concat _

/-- When a non-empty `fileId` resolves, the model text is the attachment
wrapped with the fixed marker, concatenated ahead of the message. -/
lemma attachUserContent_resolved (bucket : List R2Object) (fid msg fc : String)
    (hne : fid ≠ "") (hres : resolveAttachment bucket fid = some fc) :
    attachUserContent bucket (some fid) msg =
      "[Attached file]\n" ++ fc ++ "\n\n---\n\n" ++ msg := by
  show (if fid = "" then msg
    else match resolveAttachment bucket fid with
      | some fileContent => "[Attached file]\n" ++ fileContent ++ "\n\n---\n\n" ++ msg
      | none => msg) = _
  rw [if_neg hne, hres]

/-- C5: when a chat request carries a `fileId` resolving to stored content,
the model receives the marker-wrapped attachment concatenated ahead of the
user message as the final turn, but the session store persists exactly the
original trimmed message (followed only by the assistant reply) — the
augmented text is never written, and `exportSession` afterwards contains
the user row with the unmodified message. -/
theorem c5_attachment_ephemeral (env : ChatEnv) (body : ChatRequestBody) (w : World)
    (fid fc : String) (v : JSVal)
    (hsid : 8 ≤ (fieldToTrimmedString body.sessionId).length)
    (hmsg1 : 1 ≤ (fieldToTrimmedString body.message).length)
    (hmsg2 : (fieldToTrimmedString body.message).length ≤ env.config.messageMax)
    (hrate : (checkRateLimit (fieldToTrimmedString body.sessionId) env.tRate env.config
      w.rateLimitMap).1 = true)
    (hfid : fieldToOptTrimmed body.fileId = some fid)
    (hne : fid ≠ "")
    (hres : resolveAttachment env.bucket fid = some fc)
    (hai : ∀ p, env.ai p = .ok v) :
    (∃ p, (chatFlow env body w).sentPrompt = some p ∧
      p.getLast? = some ⟨.user,
        "[Attached file]\n" ++ fc ++ "\n\n---\n\n" ++ fieldToTrimmedString body.message⟩) ∧
    (chatFlow env body w).world.sessions (fieldToTrimmedString body.sessionId) =
      some (appendMessage .assistant (extractReply v "No response.") env.tAsst
        (chatUserAppended env body w)) ∧
    (appendMessage .assistant (extractReply v "No response.") env.tAsst
        (chatUserAppended env body w)).messages =
      (ensureInit env.tInit (w.sessions (fieldToTrimmedString body.sessionId))).messages ++
        [{ role := .user, content := fieldToTrimmedString body.message, ts := env.tUser,
           rowid := (ensureInit env.tInit
             (w.sessions (fieldToTrimmedString body.sessionId))).nextRowid },
         { role := .assistant, content := extractReply v "No response.", ts := env.tAsst,
           rowid := (ensureInit env.tInit
             (w.sessions (fieldToTrimmedString body.sessionId))).nextRowid + 1 }] ∧
    { role := MessageRole.user, content := fieldToTrimmedString body.message, ts := env.tUser,
      rowid := (ensureInit env.tInit
        (w.sessions (fieldToTrimmedString body.sessionId))).nextRowid } ∈
      (exportSession (appendMessage .assistant (extractReply v "No response.") env.tAsst
        (chatUserAppended env body w))).messages := by
  have hsid' : ¬ (fieldToTrimmedString body.sessionId).length < 8 := by omega
  have hmsg' : ¬ ((fieldToTrimmedString body.message).length < 1 ∨
      env.config.messageMax < (fieldToTrimmedString body.message).length) := by
    rintro (h | h) <;> omega
  have h1 := chatFlow_ai_ok env body w v hsid' hmsg' hrate (hai _)
  rw [h1]
  have hmem : ({ role := MessageRole.user, content := fieldToTrimmedString body.message,
                 ts := env.tUser,
                 rowid := (ensureInit env.tInit
                   (w.sessions (fieldToTrimmedString body.sessionId))).nextRowid } :
        MessageRow) ∈
      (appendMessage .assistant (extractReply v "No response.") env.tAsst
        (chatUserAppended env body w)).messages := by
    simp [chatUserAppended, appendMessage]
  refine ⟨⟨chatPrompt env body w, rfl, ?_⟩, ?_, ?_, ?_⟩
  · unfold chatPrompt
    rw [hfid, attachUserContent_resolved env.bucket fid _ fc hne hres]
    exact assemblePrompt_getLast _ _ _
  · simp [Function.update_same]
  · simp [chatUserAppended, appendMessage, List.append_assoc]
  · show _ ∈ (exportSession _).messages
    simp only [exportSession]
    exact ((List.perm_insertionSort keyLe _).mem_iff).mpr hmem

/-- Scenario E's bucket: one stored object whose body spells "CONTEXT". -/
def contextBucket : List R2Object :=
  [{ key := "uploads/file0001-doc.txt"
     chunks := [[0x43, 0x4F, 0x4E, 0x54, 0x45, 0x58, 0x54]] }]

/-- Scenario E's environment: the model always answers "Hi". -/
def sampleEnvOk : ChatEnv :=
  { config := defaultConfig, bucket := contextBucket
    ai := fun _ => Except.ok (.str "Hi")
    tRate := 5000, tInit := 5001, tUser := 5002, tAsst := 5003 }

/-- Scenario E's request: message "Question" with the attachment. -/
def attachBody : ChatRequestBody :=
  { sessionId := .str "session1", message := .str "Question", fileId := .str "file0001" }

/-- Witness for C5 at Scenario E: the attachment resolves to "CONTEXT", the
final model turn is the augmented text, and the persisted user row is
exactly "Question". -/
theorem c5_witness :
    resolveAttachment sampleEnvOk.bucket "file0001" = some "CONTEXT" ∧
    (∃ p, (chatFlow sampleEnvOk attachBody emptyWorld).sentPrompt = some p ∧
      p.getLast? = some ⟨.user,
        "[Attached file]\n" ++ "CONTEXT" ++ "\n\n---\n\n" ++
          fieldToTrimmedString attachBody.message⟩) ∧
    ({ role := MessageRole.user, content := fieldToTrimmedString attachBody.message,
       ts := sampleEnvOk.tUser,
       rowid := (ensureInit sampleEnvOk.tInit
         (emptyWorld.sessions (fieldToTrimmedString attachBody.sessionId))).nextRowid } :
         MessageRow) ∈
      (exportSession (appendMessage .assistant (extractReply (.str "Hi") "No response.")
        sampleEnvOk.tAsst (chatUserAppended sampleEnvOk attachBody emptyWorld))).messages :=
  ⟨by decide,
   (c5_attachment_ephemeral sampleEnvOk attachBody emptyWorld "file0001" "CONTEXT" (.str "Hi")
      (by decide) (by decide) (by decide) (by decide) (by decide) (by decide) (by decide)
      (fun _ => rfl)).1,
   (c5_attachment_ephemeral sampleEnvOk attachBody emptyWorld "file0001" "CONTEXT" (.str "Hi")
      (by decide) (by decide) (by decide) (by decide) (by decide) (by decide) (by decide)
      (fun _ => rfl)).2.2.2⟩

/-! ## C10 -/

/-- When the log ends in a row that is maximal for the ordering key, any
retrieval with a positive limit ends with that row. -/
lemma getRecent_ends_with_max (st : SessionState) (u : MessageRow) (limit : Int)
    (l : List MessageRow) (hlim : 1 ≤ limit) (heq : st.messages = l ++ [u])
    (hmax : ∀ x ∈ l, keyLe x u) :
    (getRecentMessages limit st).getLast? = some u := by
  unfold getRecentMessages sqlLimit orderByTsAsc
  rw [heq, if_neg (by omega), insertionSort_append_max l u hmax]
  obtain ⟨k, hk⟩ : ∃ k, limit.toNat = k + 1 := ⟨limit.toNat - 1, by omega⟩
  rw [hk, List.reverse_append, List.reverse_singleton, List.singleton_append,
    List.take_succ_cons, List.reverse_cons]
  exact List.getLast?_concat _

/-- C10 (implicit): in a successful chat exchange with history limit ≥ 1
and no effective attachment, the prompt sent to the model contains the
current user message twice — as the last entry of the fetched history
window (the flow appends before it fetches) and again as the final user
turn appended by prompt assembly.  The hypotheses on the stored rows say
that the new append carries the greatest ordering key, which holds whenever
prior rows were written by earlier requests under a monotone clock. -/
theorem c10_message_duplicated_in_prompt (env : ChatEnv) (body : ChatRequestBody) (w : World)
    (hsid : 8 ≤ (fieldToTrimmedString body.sessionId).length)
    (hmsg1 : 1 ≤ (fieldToTrimmedString body.message).length)
    (hmsg2 : (fieldToTrimmedString body.message).length ≤ env.config.messageMax)
    (hrate : (checkRateLimit (fieldToTrimmedString body.sessionId) env.tRate env.config
      w.rateLimitMap).1 = true)
    (hlim : 1 ≤ env.config.historyLimit)
    (hatt : attachUserContent env.bucket (fieldToOptTrimmed body.fileId)
      (fieldToTrimmedString body.message) = fieldToTrimmedString body.message)
    (hmax : ∀ x ∈ (ensureInit env.tInit
        (w.sessions (fieldToTrimmedString body.sessionId))).messages,
      x.ts ≤ env.tUser ∧
      x.rowid ≤ (ensureInit env.tInit
        (w.sessions (fieldToTrimmedString body.sessionId))).nextRowid) :
    ∃ p, (chatFlow env body w).sentPrompt = some p ∧
      p.getLast? = some ⟨.user, fieldToTrimmedString body.message⟩ ∧
      p.dropLast.getLast? = some ⟨.user, fieldToTrimmedString body.message⟩ := by
  have hsid' : ¬ (fieldToTrimmedString body.sessionId).length < 8 := by omega
  have hmsg' : ¬ ((fieldToTrimmedString body.message).length < 1 ∨
      env.config.messageMax < (fieldToTrimmedString body.message).length) := by
    rintro (h | h) <;> omega
  have hsp : (chatFlow env body w).sentPrompt = some (chatPrompt env body w) := by
    rw [chatFlow_reaches_model env body w hsid' hmsg' hrate]
    cases env.ai (chatPrompt env body w) <;> rfl
  have hrec : (getRecentMessages env.config.historyLimit
      (chatUserAppended env body w)).getLast? =
      some { role := MessageRole.user, content := fieldToTrimmedString body.message,
             ts := env.tUser,
             rowid := (ensureInit env.tInit
               (w.sessions (fieldToTrimmedString body.sessionId))).nextRowid } := by
    apply getRecent_ends_with_max _ _ _
      (ensureInit env.tInit (w.sessions (fieldToTrimmedString body.sessionId))).messages
      hlim
    · simp [chatUserAppended, appendMessage]
    · intro x hx
      have := hmax x hx
      unfold keyLe
      simp only
      omega
  refine ⟨chatPrompt env body w, hsp, ?_, ?_⟩
  · unfold chatPrompt
    rw [hatt]
    exact assemblePrompt_getLast _ _ _
  · unfold chatPrompt assemblePrompt
    rw [hatt, List.dropLast_concat, List.getLast?_append, List.getLast?_map, hrec]
    simp

/-- Witness for C10 at a fresh session with the always-answering model. -/
theorem c10_witness :
    1 ≤ sampleEnvOk.config.historyLimit ∧
    (∃ p, (chatFlow sampleEnvOk validBody emptyWorld).sentPrompt = some p ∧
      p.getLast? = some ⟨.user, fieldToTrimmedString validBody.message⟩ ∧
      p.dropLast.getLast? = some ⟨.user, fieldToTrimmedString validBody.message⟩) :=
  ⟨by decide,
   c10_message_duplicated_in_prompt sampleEnvOk validBody emptyWorld
     (by decide) (by decide) (by decide) (by decide) (by decide) (by decide) (by decide)⟩

/-! ## C2 -/

/-- Running the limiter over nondecreasing call times that all fit in one
window, starting from a map that records exactly `acc` for the session:
every call is accepted and every time is recorded. -/
lemma runRateCalls_all_accept (sid : String) (config : WorkerConfig) :
    ∀ (ts : List Int) (m : RateMap) (acc : List Int),
    m sid = acc →
    (acc ++ ts).length ≤ config.rateRequests →
    List.Sorted (· ≤ ·) (acc ++ ts) →
    (∀ a ∈ acc ++ ts, ∀ b ∈ acc ++ ts, a ≤ b → b - a < config.rateWindowMs) →
    (runRateCalls sid config ts m).1 = List.replicate ts.length true ∧
    (runRateCalls sid config ts m).2 sid = acc ++ ts
  | [], m, acc, hm, _, _, _ => by
    simp [runRateCalls, hm]
  | c :: cs, m, acc, hm, hlen, hsort, hwin => by
    have hkeep : (m sid).filter (fun t => decide (c - config.rateWindowMs < t)) = acc := by
      rw [hm]
      apply List.filter_eq_self.mpr
      intro a ha
      have hac : a ≤ c := by
        rcases List.pairwise_append.mp hsort with ⟨_, _, hcross⟩
        exact hcross a ha c (List.mem_cons_self _ _)
      have hwlt : c - a < config.rateWindowMs :=
        hwin a (List.mem_append_left _ ha) c
          (List.mem_append_right _ (List.mem_cons_self _ _)) hac
      simp only [decide_eq_true_eq]
      omega
    have hlt : acc.length < config.rateRequests := by
      simp only [List.length_append, List.length_cons] at hlen
      omega
    have hstep : checkRateLimit sid c config m =
        (true, Function.update m sid (acc ++ [c])) := by
      simp only [checkRateLimit]
      rw [hkeep, if_neg (by omega)]
    have hassoc : (acc ++ [c]) ++ cs = acc ++ c :: cs := by
      simp [List.append_assoc]
    have ih := runRateCalls_all_accept sid config cs
      (Function.update m sid (acc ++ [c])) (acc ++ [c])
      (Function.update_same _ _ _)
      (by rw [hassoc]; exact hlen)
      (by rw [hassoc]; exact hsort)
      (by rw [hassoc]; exact hwin)
    simp only [runRateCalls, hstep]
    refine ⟨?_, ?_⟩
    · rw [ih.1, List.length_cons, List.replicate_succ]
    · rw [ih.2, hassoc]

/-- C2: from a fresh limiter state, `maxRequests` calls that are
nondecreasing and all inside one `windowMs` interval all return `true` and
are all recorded; an additional call still inside the window of the oldest
recorded call returns `false` and leaves the map untouched; once `windowMs`
has elapsed since the oldest recorded call, a call returns `true` again.
On any single call: on rejection the map is returned unchanged (and when
the entry holds at most `maxRequests` timestamps — as every reachable entry
does — the pruning the claim allows for is a no-op, since rejection forces
every stored timestamp to be fresh); on acceptance the entry is replaced by
its pruned form (timestamps at distance ≥ `windowMs` discarded) with `now`
appended. -/
theorem c2_rate_limiter (sid : String) (config : WorkerConfig) (m : RateMap)
    (t : Int) (rest : List Int)
    (hm : m sid = [])
    (hlen : (t :: rest).length = config.rateRequests)
    (hsort : List.Sorted (· ≤ ·) (t :: rest))
    (hwin : ∀ x ∈ t :: rest, ∀ y ∈ t :: rest, x ≤ y → y - x < config.rateWindowMs) :
    (runRateCalls sid config (t :: rest) m).1 = List.replicate config.rateRequests true ∧
    (runRateCalls sid config (t :: rest) m).2 sid = t :: rest ∧
    (∀ x, x - t < config.rateWindowMs →
      checkRateLimit sid x config (runRateCalls sid config (t :: rest) m).2 =
        (false, (runRateCalls sid config (t :: rest) m).2)) ∧
    (∀ u, t + config.rateWindowMs ≤ u →
      (checkRateLimit sid u config (runRateCalls sid config (t :: rest) m).2).1 = true) ∧
    (∀ (now : Int) (m' : RateMap),
      ((checkRateLimit sid now config m').1 = false →
        (checkRateLimit sid now config m').2 = m' ∧
        ((m' sid).length ≤ config.rateRequests →
          (m' sid).filter (fun x => decide (now - config.rateWindowMs < x)) = m' sid)) ∧
      ((checkRateLimit sid now config m').1 = true →
        (checkRateLimit sid now config m').2 =
          Function.update m' sid
            ((m' sid).filter (fun x => decide (now - config.rateWindowMs < x)) ++ [now]))) := by
  have hrun := runRateCalls_all_accept sid config (t :: rest) m [] hm
    (by simpa using hlen.le) (by simpa using hsort) (by simpa using hwin)
  have hfinal : (runRateCalls sid config (t :: rest) m).2 sid = t :: rest := by
    simpa using hrun.2
  refine ⟨by simpa [hlen] using hrun.1, hfinal, ?_, ?_, ?_⟩
  · -- the (maxRequests+1)-th call inside the window is rejected, state unchanged
    intro x hx
    have hkeep : ((runRateCalls sid config (t :: rest) m).2 sid).filter
        (fun y => decide (x - config.rateWindowMs < y)) = t :: rest := by
      rw [hfinal]
      apply List.filter_eq_self.mpr
      intro a ha
      have hta : t ≤ a := by
        rcases List.sorted_cons.mp hsort with ⟨hall, _⟩
        rcases List.mem_cons.mp ha with rfl | ha'
        · exact le_refl _
        · exact hall a ha'
      simp only [decide_eq_true_eq]
      omega
    simp only [checkRateLimit]
    rw [hkeep, if_pos (by rw [← hlen])]
  · -- after the window has elapsed from the oldest call, a call is accepted
    intro u hu
    have hdrop : ((runRateCalls sid config (t :: rest) m).2 sid).filter
        (fun y => decide (u - config.rateWindowMs < y)) =
        rest.filter (fun y => decide (u - config.rateWindowMs < y)) := by
      rw [hfinal, List.filter_cons]
      rw [if_neg (by simp only [decide_eq_true_eq]; omega)]
    have hshort : (rest.filter (fun y => decide (u - config.rateWindowMs < y))).length <
        config.rateRequests := by
      have h1 : (rest.filter (fun y => decide (u - config.rateWindowMs < y))).length ≤
          rest.length := List.length_filter_le _ _
      simp only [List.length_cons] at hlen
      omega
    simp only [checkRateLimit]
    rw [hdrop, if_neg (by omega)]
  · -- the single-call contract
    intro now m'
    constructor
    · intro hrej
      by_cases hc : config.rateRequests ≤
          ((m' sid).filter (fun x => decide (now - config.rateWindowMs < x))).length
      · refine ⟨by simp only [checkRateLimit]; rw [if_pos hc], ?_⟩
        intro hlen'
        have hsub : List.Sublist
            ((m' sid).filter (fun x => decide (now - config.rateWindowMs < x)))
            (m' sid) := List.filter_sublist _
        have hle : ((m' sid).filter (fun x => decide (now - config.rateWindowMs < x))).length ≤
            (m' sid).length := hsub.length_le
        exact hsub.eq_of_length (by omega)
      · exfalso
        simp only [checkRateLimit] at hrej
        rw [if_neg hc] at hrej
        simp at hrej
    · intro hacc
      by_cases hc : config.rateRequests ≤
          ((m' sid).filter (fun x => decide (now - config.rateWindowMs < x))).length
      · exfalso
        simp only [checkRateLimit] at hacc
        rw [if_pos hc] at hacc
        simp at hacc
      · simp only [checkRateLimit]
        rw [if_neg hc]

/-- A small rate-limit configuration for the witness: 2 requests per 10 ms
window. -/
def c2config : WorkerConfig :=
  { messageMax := 2000, historyLimit := 10, summarizeLimit := 50
    rateRequests := 2, rateWindowMs := 10 }

/-- Witness for C2: from the empty map, calls at 100 and 105 (both inside
one 10 ms window) both succeed and are recorded; the third call at 106 is
rejected with the map unchanged; a call at 110 (= 100 + windowMs) succeeds
again. -/
theorem c2_witness :
    ((fun _ => []) : RateMap) "session1" = [] ∧
    (runRateCalls "session1" c2config [100, 105] (fun _ => [])).1 =
      List.replicate c2config.rateRequests true ∧
    (runRateCalls "session1" c2config [100, 105] (fun _ => [])).2 "session1" = [100, 105] ∧
    (∀ u, (100 : Int) + c2config.rateWindowMs ≤ u →
      (checkRateLimit "session1" u c2config
        (runRateCalls "session1" c2config [100, 105] (fun _ => [])).2).1 = true) :=
  ⟨rfl,
   (c2_rate_limiter "session1" c2config (fun _ => []) 100 [105]
      rfl (by decide) (by decide) (by decide)).1,
   (c2_rate_limiter "session1" c2config (fun _ => []) 100 [105]
      rfl (by decide) (by decide) (by decide)).2.1,
   (c2_rate_limiter "session1" c2config (fun _ => []) 100 [105]
      rfl (by decide) (by decide) (by decide)).2.2.2.1⟩
